import Mathlib

/-!
Shallow embedding of the CrystaRise backend (FastAPI + Supabase) business
logic: the progress ledger in `app_crystal.py`, the room membership state
machine in `app_rooms.py`, the legacy join endpoint in `main.py`, and the
profile auto-creation in `app_profile.py`.  Decimal quantities are modelled
as exact rationals (the source uses Python `Decimal`); the storage
collaborator is modelled as in-memory lists of rows, with the happy path of
each PostgREST call translated directly from the handler bodies.
-/

namespace CrystaRise

/-- An HTTP error as raised by `HTTPException(status_code, detail)`. -/
structure HttpError where
  status : Nat
  detail : String
deriving DecidableEq, Repr

/-- Room mode column: `"solo"` or `"group"`. -/
inductive Mode where
  | solo
  | group
deriving DecidableEq, Repr

/-- A row of the `rooms` table.  `name` is nullable (the generic
`create_room` endpoint inserts no name). -/
structure Room where
  id : Nat
  name : Option String
  mode : Mode
  password : String
  host_id : String
deriving DecidableEq, Repr

/-- A row of the `rooms_members` table used by `app_rooms.py`. -/
structure Member where
  room_id : Nat
  user_id : String
  role : String
deriving DecidableEq, Repr

/-- A row of the `crystals` table (a Goal). -/
structure Crystal where
  crystal_id : Nat
  room_id : Nat
  title : String
  target_value : ℚ
  unit : String
deriving DecidableEq, Repr

/-- A row of the `crystal_records` table (a Contribution).  `created_at`
is the insertion timestamp. -/
structure Record where
  record_id : Nat
  crystal_id : Nat
  user_id : String
  value : ℚ
  note : Option String
  created_at : Nat
deriving DecidableEq, Repr

/-- A row of the `users` profile table used by `app_profile.py`; the
non-key columns are nullable. -/
structure UserRow where
  user_id : String
  display_name : Option String
  avatar_url : Option String
  solo_count : Option Nat
  team_count : Option Nat
  badge_count : Option Nat
deriving DecidableEq, Repr

/-- The storage collaborator state: the tables touched by the handlers,
plus the id sequences and the clock the database would supply. -/
structure DB where
  rooms : List Room
  rooms_members : List Member
  crystals : List Crystal
  crystal_records : List Record
  users : List UserRow
  next_room_id : Nat
  next_crystal_id : Nat
  next_record_id : Nat
  now : Nat
deriving Repr

/-- Python `int()` on an exact decimal: truncation toward zero. -/
def pyInt (q : ℚ) : Int :=
  if 0 ≤ q then ⌊q⌋ else ⌈q⌉

/-- `clamp(q, 0, 1)` as written in the spec sentence for `getSummary`. -/
def clamp01 (q : ℚ) : ℚ :=
  max 0 (min q 1)

/-! ## app_crystal.py: utils -/

/-- `_fetch_crystal_by_room`: first `crystals` row with the given
`room_id` (select … eq … limit 1), `none` when there is no row. -/
def _fetch_crystal_by_room (db : DB) (room_id : Nat) : Option Crystal :=
  (db.crystals.filter (fun c => c.room_id == room_id)).head?

/-- `_fetch_crystal`: first `crystals` row with the given `crystal_id`;
the handler raises 404 when this is `none`. -/
def _fetch_crystal (db : DB) (crystal_id : Nat) : Option Crystal :=
  (db.crystals.filter (fun c => c.crystal_id == crystal_id)).head?

/-- `_sum_records`: sum of the `value` column over all `crystal_records`
rows of the given crystal, in exact decimal arithmetic. -/
def _sum_records (db : DB) (crystal_id : Nat) : ℚ :=
  ((db.crystal_records.filter (fun r => r.crystal_id == crystal_id)).map
    (fun r => r.value)).sum

/-- The `CrystalSummary` response model.  `progress_rate` is kept as an
exact rational in the embedding (the source converts the final ratio to a
float just before responding). -/
structure CrystalSummary where
  crystal_id : Nat
  title : String
  target_value : ℚ
  unit : String
  total_value : ℚ
  progress_rate : ℚ
deriving DecidableEq, Repr

/-- Request body of the record-creation endpoints (`CrystalRecordCreate`). -/
structure CrystalRecordCreate where
  value : ℚ
  note : Option String
deriving DecidableEq, Repr

/-- Request body of crystal creation (`CreateCrystalPayload`). -/
structure CreateCrystalPayload where
  room_id : Nat
  title : String
  target_value : ℚ
  unit : String
deriving DecidableEq, Repr

/-! ## app_crystal.py: endpoints -/

/-- `POST /crystals` (`create_crystal`): 409 when a crystal already exists
for the room (checked by a read before the insert), otherwise insert and
return the new row.  The state is returned unchanged on error. -/
def create_crystal (db : DB) (payload : CreateCrystalPayload) :
    Except HttpError Crystal × DB :=
  match _fetch_crystal_by_room db payload.room_id with
  | some _ => (.error ⟨409, "crystal already exists for this room"⟩, db)
  | none =>
    let c : Crystal :=
      { crystal_id := db.next_crystal_id
        room_id := payload.room_id
        title := payload.title
        target_value := payload.target_value
        unit := payload.unit }
    (.ok c, { db with crystals := db.crystals ++ [c],
                      next_crystal_id := db.next_crystal_id + 1 })

/-- `POST /crystals/{crystal_id}/records` (`add_record`): 404 when the
crystal is not visible, otherwise insert the record and return the integer
percentage `int(value / target * 100)` of this single contribution, or 0
when `target ≤ 0`. -/
def add_record (db : DB) (crystal_id : Nat) (payload : CrystalRecordCreate)
    (user_id : String) : Except HttpError Int × DB :=
  match _fetch_crystal db crystal_id with
  | none => (.error ⟨404, "crystal not found"⟩, db)
  | some crystal =>
    let newRecord : Record :=
      { record_id := db.next_record_id
        crystal_id := crystal_id
        user_id := user_id
        value := payload.value
        note := payload.note
        created_at := db.now }
    let db2 : DB :=
      { db with crystal_records := db.crystal_records ++ [newRecord],
                next_record_id := db.next_record_id + 1 }
    let target := crystal.target_value
    let percent : Int :=
      if 0 < target then pyInt (payload.value / target * 100) else 0
    (.ok percent, db2)

/-- Response of `add_record_by_room`: the inserted row and the post-write
summary. -/
structure AddRecordByRoomResponse where
  record : Record
  summary : CrystalSummary
deriving DecidableEq, Repr

/-- `POST /crystals/by-room/{room_id}/records` (`add_record_by_room`):
resolve the room's crystal (404 when absent), insert the record, then
recompute and return the full summary. -/
def add_record_by_room (db : DB) (room_id : Nat)
    (payload : CrystalRecordCreate) (user_id : String) :
    Except HttpError AddRecordByRoomResponse × DB :=
  match _fetch_crystal_by_room db room_id with
  | none => (.error ⟨404, "crystal not found for this room"⟩, db)
  | some crystal =>
    let crystal_id := crystal.crystal_id
    let newRecord : Record :=
      { record_id := db.next_record_id
        crystal_id := crystal_id
        user_id := user_id
        value := payload.value
        note := payload.note
        created_at := db.now }
    let db2 : DB :=
      { db with crystal_records := db.crystal_records ++ [newRecord],
                next_record_id := db.next_record_id + 1 }
    let total := _sum_records db2 crystal_id
    let target := crystal.target_value
    let rate : ℚ := if 0 < target then total / target else 0
    (.ok { record := newRecord
           summary :=
             { crystal_id := crystal_id
               title := crystal.title
               target_value := target
               unit := crystal.unit
               total_value := total
               progress_rate := min rate 1 } }, db2)

/-- `GET /crystals/{crystal_id}/summary` (`get_summary`): 404 when the
crystal is absent, otherwise the summary with
`progress_rate = min(total/target, 1)` (`0` when `target ≤ 0`). -/
def get_summary (db : DB) (crystal_id : Nat) :
    Except HttpError CrystalSummary :=
  match _fetch_crystal db crystal_id with
  | none => .error ⟨404, "crystal not found"⟩
  | some crystal =>
    let total := _sum_records db crystal_id
    let target := crystal.target_value
    let rate : ℚ := if 0 < target then total / target else 0
    .ok { crystal_id := crystal.crystal_id
          title := crystal.title
          target_value := target
          unit := crystal.unit
          total_value := total
          progress_rate := min rate 1 }

/-- `GET /crystals/by-room/{room_id}/summary` (`get_summary_by_room`):
like `get_summary` but the crystal is resolved through the room id. -/
def get_summary_by_room (db : DB) (room_id : Nat) :
    Except HttpError CrystalSummary :=
  match _fetch_crystal_by_room db room_id with
  | none => .error ⟨404, "crystal not found for this room"⟩
  | some crystal =>
    let crystal_id := crystal.crystal_id
    let total := _sum_records db crystal_id
    let target := crystal.target_value
    let rate : ℚ := if 0 < target then total / target else 0
    .ok { crystal_id := crystal_id
          title := crystal.title
          target_value := target
          unit := crystal.unit
          total_value := total
          progress_rate := min rate 1 }

/-- `GET /crystals/{crystal_id}/records` (`list_records`): 404 when the
crystal is absent, otherwise the crystal's records ordered by `created_at`
descending and truncated to `limit` rows (default 50). -/
def list_records (db : DB) (crystal_id : Nat) (limit : Nat := 50) :
    Except HttpError (List Record) :=
  match _fetch_crystal db crystal_id with
  | none => .error ⟨404, "crystal not found"⟩
  | some _ =>
    .ok (((db.crystal_records.filter (fun r => r.crystal_id == crystal_id)).mergeSort
      (fun a b => decide (b.created_at ≤ a.created_at))).take limit)

/-! ## app_rooms.py -/

/-- `string.ascii_uppercase + string.digits`: the alphabet used by
`generate_password`. -/
def password_chars : List Char :=
  "ABCDEFGHIJKLMNOPQRSTUVWXYZ0123456789".data

/-- `generate_password(length)`: `length` independent draws from
`password_chars`; the random generator is modelled by the oracle `pick`
giving the index chosen at each position. -/
def generate_password (length : Nat) (pick : Nat → Fin password_chars.length) :
    String :=
  String.mk ((List.range length).map (fun i => password_chars.get (pick i)))

/-- PostgREST `upsert` into `rooms_members` with
`on_conflict="room_id,user_id"`: update the role of the existing row for
the key when present, otherwise insert a new row. -/
def upsert_member (members : List Member) (room_id : Nat) (user_id : String)
    (role : String) : List Member :=
  if members.any (fun m => m.room_id == room_id && m.user_id == user_id) then
    members.map (fun m =>
      if m.room_id == room_id && m.user_id == user_id then
        { m with role := role }
      else m)
  else
    members ++ [{ room_id := room_id, user_id := user_id, role := role }]

/-- Response of `POST /rooms`. -/
structure CreateRoomResponse where
  message : String
  room_id : Nat
  password : String
deriving DecidableEq, Repr

/-- `POST /rooms` (`create_room` in `app_rooms.py`): insert a room with
`mode="solo"` and a generated password, then upsert the creator as a
member with role `"host"`. -/
def create_room (db : DB) (user_id : String)
    (pick : Nat → Fin password_chars.length) :
    Except HttpError CreateRoomResponse × DB :=
  let password := generate_password 6 pick
  let room : Room :=
    { id := db.next_room_id
      name := none
      mode := .solo
      password := password
      host_id := user_id }
  let db1 : DB :=
    { db with rooms := db.rooms ++ [room],
              next_room_id := db.next_room_id + 1 }
  let db2 : DB :=
    { db1 with rooms_members := upsert_member db1.rooms_members room.id user_id "host" }
  (.ok { message := "Room created successfully.", room_id := room.id,
         password := password }, db2)

/-- `POST /rooms/join` (`join_room` in `app_rooms.py`): 404 when the room
is absent, 401 on password mismatch, 409 when the room is solo and any
membership row already exists for it, otherwise upsert a `"member"` row. -/
def join_room (db : DB) (room_id : Nat) (password : String)
    (user_id : String) : Except HttpError String × DB :=
  match db.rooms.find? (fun r => r.id == room_id) with
  | none => (.error ⟨404, "Room not found."⟩, db)
  | some room =>
    if room.password ≠ password then
      (.error ⟨401, "Invalid password."⟩, db)
    else if room.mode = .solo ∧
        (db.rooms_members.filter (fun m => m.room_id == room_id)) ≠ [] then
      (.error ⟨409, "This is a solo room and is already occupied."⟩, db)
    else
      (.ok "Successfully joined the room.",
       { db with rooms_members := upsert_member db.rooms_members room_id user_id "member" })

/-! ## main.py: legacy `/rooms/join`

`main.py` registers its own `join_room` against a separate `room_members`
table.  Its `try` block has no `except HTTPException: raise` clause, so
every `HTTPException` raised inside it (str form `"{status}: {detail}"`)
is caught by the blanket `except Exception` handler and rewritten. -/

/-- State used by the `main.py` join endpoint: rooms plus the
`room_members` table of `(room_id, user_id)` rows. -/
structure MainDB where
  rooms : List Room
  room_members : List (Nat × String)
deriving Repr

/-- Whether `pat` occurs as a contiguous run at the head of `cs`. -/
def leadsList : List Char → List Char → Bool
  | [], _ => true
  | _ :: _, [] => false
  | a :: as, b :: bs => a == b && leadsList as bs

/-- Python `pat in s` on character lists: substring occurrence. -/
def occursIn (pat : List Char) : List Char → Bool
  | [] => leadsList pat []
  | c :: rest => leadsList pat (c :: rest) || occursIn pat rest

/-- The blanket `except Exception as e` clause of `main.py`'s `join_room`,
applied to `str(e)`. -/
def main_join_wrap (s : String) : HttpError :=
  if occursIn "rows not found".data s.data ||
      occursIn "The resource was not found".data s.data then
    ⟨404, "Room not found."⟩
  else if occursIn "violates row-level security policy".data s.data then
    ⟨401, "Authorization failed due to RLS policy. Please ensure RLS is correctly configured or disabled for testing."⟩
  else
    ⟨500, "Database operation failed: " ++ s⟩

/-- The body of `main.py`'s `join_room` `try` block.  Errors carry
`str(e)` of the raised exception: the PostgREST error message when
`.single()` finds no row, `"{status}: {detail}"` for `HTTPException`s. -/
def main_join_room_body (db : MainDB) (room_id : Nat) (password : String)
    (user_id : String) : Except String String × MainDB :=
  match db.rooms.find? (fun r => r.id == room_id) with
  | none =>
    (.error "JSON object requested, multiple (or no) rows returned", db)
  | some room =>
    if room.password ≠ password then
      (.error "401: Invalid password.", db)
    else if db.room_members.any (fun m => m.1 == room_id && m.2 == user_id) then
      (.error "409: User is already a member of this room.", db)
    else
      (.ok "Successfully joined the room.",
       { db with room_members := db.room_members ++ [(room_id, user_id)] })

/-- `POST /rooms/join` as registered by `main.py`: the body wrapped by the
blanket exception clause. -/
def main_join_room (db : MainDB) (room_id : Nat) (password : String)
    (user_id : String) : Except HttpError String × MainDB :=
  match main_join_room_body db room_id password user_id with
  | (.error s, db2) => (.error (main_join_wrap s), db2)
  | (.ok v, db2) => (.ok v, db2)

/-! ## app_profile.py -/

/-- The `ProfileOut` response model. -/
structure ProfileOut where
  display_name : String
  avatar_url : Option String
  solo_count : Nat
  team_count : Nat
  badge_count : Nat
deriving DecidableEq, Repr

/-- Python truthiness fallback `x or y` for an optional string. -/
def orElseStr (x : Option String) (y : String) : String :=
  match x with
  | some s => if s = "" then y else s
  | none => y

/-- `_row_to_profile`: map a `users` row to `ProfileOut`, defaulting the
nullable columns (`or "User"`, `or 0`). -/
def _row_to_profile (row : UserRow) : ProfileOut :=
  { display_name := orElseStr row.display_name "User"
    avatar_url := row.avatar_url
    solo_count := row.solo_count.getD 0
    team_count := row.team_count.getD 0
    badge_count := row.badge_count.getD 0 }

/-- `_default_profile_payload(display_name)` combined with the
`user_id` key, as inserted by `get_my_profile`. -/
def _default_profile_row (user_id : String) (display_name : String) : UserRow :=
  { user_id := user_id
    display_name := some display_name
    avatar_url := none
    solo_count := some 0
    team_count := some 0
    badge_count := some 0 }

/-- `meta.get("name") or "User"`, with `"User"` also covering a failing
metadata fetch (`meta` is `none` then). -/
def initial_profile_name (meta_name : Option String) : String :=
  orElseStr meta_name "User"

/-- `GET /me/profile` (`get_my_profile`): return the caller's profile row
when present; otherwise insert a default row (name from the identity
provider metadata, falling back to `"User"`) and return it.  There is no
404 branch. -/
def get_my_profile (db : DB) (user_id : String) (meta_name : Option String) :
    Except HttpError ProfileOut × DB :=
  match (db.users.filter (fun r => r.user_id == user_id)).head? with
  | some row => (.ok (_row_to_profile row), db)
  | none =>
    let payload := _default_profile_row user_id (initial_profile_name meta_name)
    (.ok (_row_to_profile payload),
     { db with users := db.users ++ [payload] })

/-! ## Wire encoding of decimals

`add_record` serialises `payload.value` with `str(...)` before handing it
to the storage collaborator, and `_sum_records` parses each row back with
`Decimal(str(row["value"]))` before adding.  The values are fixed-point
with 4 fractional digits (pydantic `decimal_places=4`), so a value is a
scaled integer `n` denoting `n / 10^4`. -/

/-- The ASCII digit character for `d < 10`. -/
def digitChar (d : Nat) : Char :=
  Char.ofNat (48 + d)

/-- The numeric value of an ASCII digit character. -/
def charToDigit (c : Char) : Nat :=
  c.toNat - 48

/-- Read a most-significant-first digit list as a natural number. -/
def ofDigitsMSD (l : List Nat) : Nat :=
  l.foldl (fun a d => 10 * a + d) 0

/-- Decimal digit characters of `m`, most significant first (`"0"` has a
single digit). -/
def natDecChars (m : Nat) : List Char :=
  if m = 0 then ['0'] else ((Nat.digits 10 m).reverse.map digitChar)

/-- The four fractional digit characters of `f < 10000`, zero padded. -/
def fracDecChars (f : Nat) : List Char :=
  [f / 1000 % 10, f / 100 % 10, f / 10 % 10, f % 10].map digitChar

/-- Character form of `str(...)` for the fixed-point value `n / 10^4`:
optional sign, integer part, `'.'`, four fractional digits. -/
def wireChars (n : ℤ) : List Char :=
  let a := n.natAbs
  let body := natDecChars (a / 10000) ++ '.' :: fracDecChars (a % 10000)
  if n < 0 then '-' :: body else body

/-- `str(...)` of the fixed-point value `n / 10^4` as sent on the wire. -/
def decimalToWire (n : ℤ) : String :=
  String.mk (wireChars n)

/-- Split a character list on `'.'` (every occurrence), as `Decimal`
parsing separates integer and fractional parts. -/
def splitOnDot : List Char → List (List Char)
  | [] => [[]]
  | c :: rest =>
    if c = '.' then [] :: splitOnDot rest
    else
      match splitOnDot rest with
      | [] => [[c]]
      | g :: gs => (c :: g) :: gs

/-- The unsigned part of `Decimal(s)` parsing: either a digit run or two
digit runs separated by one `'.'` (at least one run nonempty); the value
is exact. -/
def parseUnsignedChars (body : List Char) : Option ℚ :=
  match splitOnDot body with
  | [ip] =>
    if !ip.isEmpty && ip.all Char.isDigit then
      some (ofDigitsMSD (ip.map charToDigit) : ℚ)
    else none
  | [ip, fp] =>
    if (!ip.isEmpty || !fp.isEmpty) && ip.all Char.isDigit &&
        fp.all Char.isDigit then
      some ((ofDigitsMSD (ip.map charToDigit) : ℚ) +
        (ofDigitsMSD (fp.map charToDigit) : ℚ) / (10 : ℚ) ^ fp.length)
    else none
  | _ => none

/-- `Decimal(s)` on a character list: optional sign, then the unsigned
part. -/
def parseDecChars (cs : List Char) : Option ℚ :=
  if cs.head? = some '-' then
    (parseUnsignedChars cs.tail).map (fun q => -q)
  else if cs.head? = some '+' then
    parseUnsignedChars cs.tail
  else
    parseUnsignedChars cs

/-- `Decimal(s)` for a wire string. -/
def parseDecimal (s : String) : Option ℚ :=
  parseDecChars s.data

/-- `_sum_records` over the wire representation: start from `Decimal("0")`
and add `Decimal(str(row value))` for each row; a row that fails to parse
raises (modelled as `none`). -/
def sum_records_wire (rows : List String) : Option ℚ :=
  rows.foldl (fun acc s => do
    let a ← acc
    let v ← parseDecimal s
    pure (a + v)) (some 0)

/-! ## Helper lemmas -/

theorem clamp01_of_nonneg {q : ℚ} (h : 0 ≤ q) : clamp01 q = min q 1 :=
  max_eq_right (le_min h zero_le_one)

theorem sum_records_nonneg (db : DB) (cid : Nat)
    (h : ∀ r ∈ db.crystal_records, r.crystal_id = cid → 0 ≤ r.value) :
    0 ≤ _sum_records db cid := by
  apply List.sum_nonneg
  intro x hx
  simp only [_sum_records, List.mem_map, List.mem_filter, beq_iff_eq] at hx
  obtain ⟨r, ⟨hr, hrc⟩, rfl⟩ := hx
  exact h r hr hrc

end CrystaRise

namespace CrystaRise

/-- Claim C1: for every Goal with target value strictly greater than 0 and
every finite set of Contributions with non-negative values summing to `S`,
`getSummary` (both the crystal-id and the room-id entry points) returns
`progress_rate = clamp(S/target, 0, 1)`; for `target = 0` it returns
`progress_rate = 0` regardless of `S`. -/
theorem getSummary_progress_rate_clamped (db : DB) (cid rid : Nat) :
    (∀ c, _fetch_crystal db cid = some c →
      (∀ r ∈ db.crystal_records, r.crystal_id = cid → 0 ≤ r.value) →
      0 < c.target_value →
      get_summary db cid = .ok ⟨c.crystal_id, c.title, c.target_value, c.unit,
        _sum_records db cid, clamp01 (_sum_records db cid / c.target_value)⟩) ∧
    (∀ c, _fetch_crystal db cid = some c → c.target_value = 0 →
      get_summary db cid = .ok ⟨c.crystal_id, c.title, c.target_value, c.unit,
        _sum_records db cid, 0⟩) ∧
    (∀ c, _fetch_crystal_by_room db rid = some c →
      (∀ r ∈ db.crystal_records, r.crystal_id = c.crystal_id → 0 ≤ r.value) →
      0 < c.target_value →
      get_summary_by_room db rid = .ok ⟨c.crystal_id, c.title, c.target_value, c.unit,
        _sum_records db c.crystal_id,
        clamp01 (_sum_records db c.crystal_id / c.target_value)⟩) ∧
    (∀ c, _fetch_crystal_by_room db rid = some c → c.target_value = 0 →
      get_summary_by_room db rid = .ok ⟨c.crystal_id, c.title, c.target_value, c.unit,
        _sum_records db c.crystal_id, 0⟩) := by
  refine ⟨?_, ?_, ?_, ?_⟩
  · intro c hc hv ht
    have hnn : 0 ≤ _sum_records db cid / c.target_value :=
      div_nonneg (sum_records_nonneg db cid hv) (le_of_lt ht)
    simp only [get_summary, hc, if_pos ht, clamp01_of_nonneg hnn]
  · intro c hc ht
    simp only [get_summary, hc, ht, lt_self_iff_false, if_false]
    norm_num
  · intro c hc hv ht
    have hnn : 0 ≤ _sum_records db c.crystal_id / c.target_value :=
      div_nonneg (sum_records_nonneg db c.crystal_id hv) (le_of_lt ht)
    simp only [get_summary_by_room, hc, if_pos ht, clamp01_of_nonneg hnn]
  · intro c hc ht
    simp only [get_summary_by_room, hc, ht, lt_self_iff_false, if_false]
    norm_num

/-- Example state for the C1 witness: one crystal with target 100 and two
contributions 40 and 70 (the spec scenario: total 110, rate clamped to 1). -/
def exC1db : DB :=
  { rooms := []
    rooms_members := []
    crystals := [⟨1, 7, "goal", 100, "km"⟩]
    crystal_records := [⟨1, 1, "u", 40, none, 1⟩, ⟨2, 1, "u", 70, none, 2⟩]
    users := []
    next_room_id := 10
    next_crystal_id := 2
    next_record_id := 3
    now := 5 }

/-- Witness for C1 at a concrete state: the summary of target 100 with
contributions 40 and 70 has `progress_rate = clamp(110/100, 0, 1) = 1`. -/
theorem getSummary_progress_rate_clamped_witness :
    (get_summary exC1db 1 = .ok ⟨1, "goal", 100, "km", _sum_records exC1db 1,
      clamp01 (_sum_records exC1db 1 / 100)⟩) ∧
    _sum_records exC1db 1 = 110 ∧ clamp01 (110 / 100) = 1 :=
  ⟨(getSummary_progress_rate_clamped exC1db 1 0).1 ⟨1, 7, "goal", 100, "km"⟩
    (by decide) (by decide) (by norm_num), by norm_num [_sum_records, exC1db],
    by norm_num [clamp01]⟩

/-- Claim C2 (amended): for every existing Goal, adding a Contribution via
the goal-id entry point returns the integer obtained by truncating
`value / target * 100` toward zero (Python `int()`), in exact decimal
arithmetic and unclamped; truncation agrees with `floor` whenever the
contribution value is non-negative; and it returns 0 whenever
`target ≤ 0`. -/
theorem addRecord_percent_truncation (db : DB) (cid : Nat)
    (payload : CrystalRecordCreate) (uid : String) :
    ∀ c, _fetch_crystal db cid = some c →
      ((0 < c.target_value →
        (add_record db cid payload uid).1 =
          .ok (pyInt (payload.value / c.target_value * 100))) ∧
       (c.target_value ≤ 0 → (add_record db cid payload uid).1 = .ok 0) ∧
       (0 ≤ payload.value → 0 < c.target_value →
        pyInt (payload.value / c.target_value * 100) =
          ⌊payload.value / c.target_value * 100⌋)) := by
  intro c hc
  refine ⟨?_, ?_, ?_⟩
  · intro ht
    simp only [add_record, hc, if_pos ht]
  · intro ht
    simp only [add_record, hc, if_neg (not_lt.mpr ht)]
  · intro hv ht
    have hq : 0 ≤ payload.value / c.target_value * 100 := by positivity
    simp only [pyInt, if_pos hq]

/-- State for the C2 counterexample: a single crystal with target 3. -/
def exC2db : DB :=
  { rooms := []
    rooms_members := []
    crystals := [⟨1, 7, "goal", 3, "kg"⟩]
    crystal_records := []
    users := []
    next_room_id := 1
    next_crystal_id := 2
    next_record_id := 1
    now := 1 }

/-- Counterexample to C2 as stated: a contribution of value `-1` against
target `3` makes the endpoint return `int(-100/3) = -33` (truncation
toward zero), while `floor(-100/3) = -34`. -/
theorem addRecord_percent_floor_counterexample :
    (add_record exC2db 1 ⟨-1, none⟩ "u").1 = .ok (-33) ∧
    (⌊((-1 : ℚ) / 3) * 100⌋ : Int) = -34 := by
  constructor
  · have hfetch : _fetch_crystal exC2db 1 = some ⟨1, 7, "goal", 3, "kg"⟩ := by
      decide
    simp only [add_record, hfetch]
    norm_num [pyInt]
    rw [Int.ceil_neg]
    norm_num
  · norm_num

/-- Witness for the amended C2 at a concrete state: the spec scenario
value 80 against target 50-style goal returns the unclamped percentage,
and for the non-negative value the truncation is the floor. -/
theorem addRecord_percent_truncation_witness :
    ((add_record exC1db 1 ⟨80, none⟩ "u").1 = .ok (pyInt (80 / 100 * 100)) ∧
      pyInt ((80 : ℚ) / 100 * 100) = ⌊(80 : ℚ) / 100 * 100⌋) ∧
    (add_record exC2db 1 ⟨80, none⟩ "u").1 = .ok (pyInt (80 / 3 * 100)) := by
  have h1 := addRecord_percent_truncation exC1db 1 ⟨80, none⟩ "u"
    ⟨1, 7, "goal", 100, "km"⟩ (by decide)
  have h2 := addRecord_percent_truncation exC2db 1 ⟨80, none⟩ "u"
    ⟨1, 7, "goal", 3, "kg"⟩ (by decide)
  exact ⟨⟨h1.1 (by norm_num), h1.2.2 (by norm_num) (by norm_num)⟩,
    h2.1 (by norm_num)⟩

theorem sum_records_state_snoc (db db2 : DB) (r : Record) (cid : Nat)
    (h2 : db2.crystal_records = db.crystal_records ++ [r])
    (hr : r.crystal_id = cid) :
    _sum_records db2 cid = _sum_records db cid + r.value := by
  simp [_sum_records, h2, List.filter_append, List.filter, hr]

theorem fetch_crystal_of_mem (db : DB) (cid : Nat) (c : Crystal)
    (hc : c ∈ db.crystals) (hcid : c.crystal_id = cid) :
    ∃ c2, _fetch_crystal db cid = some c2 ∧ c2.crystal_id = cid := by
  have hne : db.crystals.filter (fun x => x.crystal_id == cid) ≠ [] := by
    rw [Ne, List.filter_eq_nil_iff]
    push_neg
    exact ⟨c, hc, by simp [hcid]⟩
  cases hh : (db.crystals.filter (fun x => x.crystal_id == cid)).head? with
  | none => exact absurd (List.head?_eq_none_iff.mp hh) hne
  | some c2 =>
    refine ⟨c2, hh, ?_⟩
    have := List.of_mem_filter (List.mem_of_mem_head? hh)
    simpa using this

/-- Claim C3: a Contribution added via the room-id entry point is
reflected in the read-after-write total: the Summary in the response of
that very call, as well as the Summaries returned by an immediately
following `get_summary` or `get_summary_by_room` on the updated state,
all have `total_value` equal to the previous total plus the new
contribution's value. -/
theorem addRecordByRoom_read_after_write (db : DB) (rid : Nat)
    (payload : CrystalRecordCreate) (uid : String) :
    ∀ c, _fetch_crystal_by_room db rid = some c →
      ((add_record_by_room db rid payload uid).1.map
          (fun resp => resp.summary.total_value) =
        .ok (_sum_records db c.crystal_id + payload.value)) ∧
      ((get_summary (add_record_by_room db rid payload uid).2 c.crystal_id).map
          (fun s => s.total_value) =
        .ok (_sum_records db c.crystal_id + payload.value)) ∧
      ((get_summary_by_room (add_record_by_room db rid payload uid).2 rid).map
          (fun s => s.total_value) =
        .ok (_sum_records db c.crystal_id + payload.value)) := by
  intro c hc
  have hcf : c ∈ db.crystals.filter (fun x => x.room_id == rid) :=
    List.mem_of_mem_head? hc
  have hcmem : c ∈ db.crystals := List.mem_of_mem_filter hcf
  simp only [add_record_by_room, hc]
  set nr : Record := ⟨db.next_record_id, c.crystal_id, uid, payload.value, payload.note, db.now⟩ with hnr
  set db2 : DB := { db with crystal_records := db.crystal_records ++ [nr], next_record_id := db.next_record_id + 1 } with hdb2
  have hsum : _sum_records db2 c.crystal_id = _sum_records db c.crystal_id + payload.value :=
    sum_records_state_snoc db db2 nr c.crystal_id (by rw [hdb2]) rfl
  refine ⟨by simp [Except.map, hsum], ?_, ?_⟩
  · obtain ⟨c2, hf2, hc2⟩ := fetch_crystal_of_mem db2 c.crystal_id c (by rw [hdb2]; exact hcmem) rfl
    simp only [get_summary, hf2, Except.map, hsum]
  · have hfr2 : _fetch_crystal_by_room db2 rid = some c := by
      simp only [_fetch_crystal_by_room, hdb2]
      exact hc
    simp only [get_summary_by_room, hfr2, Except.map, hsum]

/-- Witness for C3 at a concrete state: after adding value 30 to the goal
of room 7 (previous total 110), the returned and re-read totals are
`110 + 30`. -/
theorem addRecordByRoom_read_after_write_witness :
    ((add_record_by_room exC1db 7 ⟨30, none⟩ "u").1.map
        (fun resp => resp.summary.total_value) =
      .ok (_sum_records exC1db 1 + 30)) ∧
    _sum_records exC1db 1 + 30 = 140 :=
  ⟨(addRecordByRoom_read_after_write exC1db 7 ⟨30, none⟩ "u"
      ⟨1, 7, "goal", 100, "km"⟩ (by decide)).1,
    by norm_num [_sum_records, exC1db]⟩

/-- Claim C4: `join` fails with NotFound when the group is absent;
otherwise with Unauthorized when the password mismatches (even when the
room is solo and occupied, showing the password check precedes the
capacity check); otherwise with Conflict when the room is solo and any
membership row exists for it, whoever its user is. -/
theorem joinRoom_error_order (db : DB) (rid : Nat) (pwd uid : String) :
    (db.rooms.find? (fun r => r.id == rid) = none →
      join_room db rid pwd uid = (.error ⟨404, "Room not found."⟩, db)) ∧
    (∀ room, db.rooms.find? (fun r => r.id == rid) = some room →
      room.password ≠ pwd →
      join_room db rid pwd uid = (.error ⟨401, "Invalid password."⟩, db)) ∧
    (∀ room, db.rooms.find? (fun r => r.id == rid) = some room →
      room.password = pwd → room.mode = .solo →
      db.rooms_members.filter (fun m => m.room_id == rid) ≠ [] →
      join_room db rid pwd uid =
        (.error ⟨409, "This is a solo room and is already occupied."⟩, db)) := by
  refine ⟨?_, ?_, ?_⟩
  · intro h
    simp only [join_room, h]
  · intro room h hp
    simp only [join_room, h, if_pos hp]
  · intro room h hp hm hne
    simp only [join_room, h]
    rw [if_neg (by simp [hp]), if_pos ⟨hm, hne⟩]

/-- State for the C4 witness: one solo room with password `"PW"` whose
host `"h"` is already a member. -/
def exC4db : DB :=
  { rooms := [⟨5, none, .solo, "PW", "h"⟩]
    rooms_members := [⟨5, "h", "host"⟩]
    crystals := []
    crystal_records := []
    users := []
    next_room_id := 6
    next_crystal_id := 1
    next_record_id := 1
    now := 1 }

/-- Witness for C4 at a concrete state: absent room id 99 gives 404,
wrong password on the occupied solo room gives 401 (password before
capacity), correct password on the occupied solo room gives 409 even for
a different user. -/
theorem joinRoom_error_order_witness :
    join_room exC4db 99 "PW" "u2" = (.error ⟨404, "Room not found."⟩, exC4db) ∧
    join_room exC4db 5 "WRONG" "u2" = (.error ⟨401, "Invalid password."⟩, exC4db) ∧
    join_room exC4db 5 "PW" "u2" =
      (.error ⟨409, "This is a solo room and is already occupied."⟩, exC4db) :=
  ⟨(joinRoom_error_order exC4db 99 "PW" "u2").1 (by decide),
   (joinRoom_error_order exC4db 5 "WRONG" "u2").2.1 ⟨5, none, .solo, "PW", "h"⟩
     (by decide) (by decide),
   (joinRoom_error_order exC4db 5 "PW" "u2").2.2 ⟨5, none, .solo, "PW", "h"⟩
     (by decide) rfl rfl (by decide)⟩

theorem upsert_member_fixed (ms : List Member) (rid : Nat) (uid role : String)
    (hany : ms.any (fun m => m.room_id == rid && m.user_id == uid) = true)
    (hrole : ∀ m ∈ ms, m.room_id = rid → m.user_id = uid → m.role = role) :
    upsert_member ms rid uid role = ms := by
  unfold upsert_member
  rw [hany, if_pos rfl]
  have : ∀ m ∈ ms,
      (if m.room_id == rid && m.user_id == uid then { m with role := role } else m) = m := by
    intro m hm
    by_cases hmatch : (m.room_id == rid && m.user_id == uid) = true
    · rw [if_pos hmatch]
      simp only [Bool.and_eq_true, beq_iff_eq] at hmatch
      have := hrole m hm hmatch.1 hmatch.2
      cases m
      simp_all
    · rw [if_neg hmatch]
  calc List.map _ ms = List.map id ms := List.map_congr_left this
    _ = ms := List.map_id ms

theorem upsert_member_has_row (ms : List Member) (rid : Nat) (uid role : String) :
    ∃ m ∈ upsert_member ms rid uid role,
      m.room_id = rid ∧ m.user_id = uid ∧ m.role = role := by
  unfold upsert_member
  by_cases hany : ms.any (fun m => m.room_id == rid && m.user_id == uid) = true
  · rw [hany, if_pos rfl]
    obtain ⟨m0, hm0, hmatch⟩ := List.any_eq_true.mp hany
    refine ⟨{ m0 with role := role }, List.mem_map.mpr ⟨m0, hm0, by simp [hmatch]⟩, ?_⟩
    simp only [Bool.and_eq_true, beq_iff_eq] at hmatch
    exact ⟨hmatch.1, hmatch.2, rfl⟩
  · rw [Bool.not_eq_true] at hany
    rw [hany]
    simp only [Bool.false_eq_true, if_false]
    exact ⟨⟨rid, uid, role⟩, List.mem_append_right _ (List.mem_singleton.mpr rfl),
      rfl, rfl, rfl⟩

theorem upsert_member_role_set (ms : List Member) (rid : Nat) (uid role : String) :
    ∀ m ∈ upsert_member ms rid uid role, m.room_id = rid → m.user_id = uid → m.role = role := by
  unfold upsert_member
  by_cases hany : ms.any (fun m => m.room_id == rid && m.user_id == uid) = true
  · rw [hany, if_pos rfl]
    intro m hm hr hu
    obtain ⟨m0, hm0, hf⟩ := List.mem_map.mp hm
    by_cases hmatch : (m0.room_id == rid && m0.user_id == uid) = true
    · simp only [hmatch, if_true] at hf
      rw [← hf]
    · simp only [hmatch, Bool.false_eq_true, if_false] at hf
      subst hf
      simp [hr, hu] at hmatch
  · rw [Bool.not_eq_true] at hany
    rw [hany]
    simp only [Bool.false_eq_true, if_false]
    intro m hm hr hu
    rcases List.mem_append.mp hm with h | h
    · have hall := List.any_eq_false.mp hany
      exact absurd (by simp [hr, hu] : (m.room_id == rid && m.user_id == uid) = true)
        (hall m h)
    · rw [List.mem_singleton.mp h]

theorem upsert_member_any_after (ms : List Member) (rid : Nat) (uid role : String) :
    (upsert_member ms rid uid role).any
      (fun m => m.room_id == rid && m.user_id == uid) = true := by
  obtain ⟨m, hm, h1, h2, h3⟩ := upsert_member_has_row ms rid uid role
  exact List.any_eq_true.mpr ⟨m, hm, by simp [h1, h2]⟩

theorem upsert_member_idempotent (ms : List Member) (rid : Nat) (uid role : String) :
    upsert_member (upsert_member ms rid uid role) rid uid role =
      upsert_member ms rid uid role :=
  upsert_member_fixed _ rid uid role (upsert_member_any_after ms rid uid role)
    (upsert_member_role_set ms rid uid role)

/-- Claim C5 (amended, rooms-router side): joining a group-mode room with
the correct password through `app_rooms.join_room` succeeds, and the
identical retry succeeds again and leaves the state exactly as after the
first join — the membership upsert adds no duplicate row. -/
theorem joinRoom_group_idempotent (db : DB) (rid : Nat) (pwd uid : String) :
    ∀ room, db.rooms.find? (fun r => r.id == rid) = some room →
      room.mode = .group → room.password = pwd →
      ∃ db2, join_room db rid pwd uid = (.ok "Successfully joined the room.", db2) ∧
        join_room db2 rid pwd uid = (.ok "Successfully joined the room.", db2) := by
  intro room hfind hmode hpwd
  refine ⟨{ db with rooms_members := upsert_member db.rooms_members rid uid "member" }, ?_, ?_⟩
  · simp only [join_room, hfind]
    rw [if_neg (by simp [hpwd]), if_neg (by simp [hmode])]
  · simp only [join_room, hfind]
    rw [if_neg (by simp [hpwd]), if_neg (by simp [hmode])]
    rw [upsert_member_idempotent]

/-- State for the C5 witness: one group-mode room with password `"PW"`. -/
def exC5db : DB :=
  { rooms := [⟨3, none, .group, "PW", "h"⟩]
    rooms_members := []
    crystals := []
    crystal_records := []
    users := []
    next_room_id := 4
    next_crystal_id := 1
    next_record_id := 1
    now := 1 }

/-- Witness for the amended C5 at a concrete state: user `"u2"` joins the
group room twice; both calls succeed and the second changes nothing. -/
theorem joinRoom_group_idempotent_witness :
    ∃ db2, join_room exC5db 3 "PW" "u2" = (.ok "Successfully joined the room.", db2) ∧
      join_room db2 3 "PW" "u2" = (.ok "Successfully joined the room.", db2) :=
  joinRoom_group_idempotent exC5db 3 "PW" "u2" ⟨3, none, .group, "PW", "h"⟩
    (by decide) rfl rfl

/-- State for the C5 counterexample: the same group-mode room as seen by
the legacy `main.py` join endpoint, with its separate `room_members`
table. -/
def exC5mdb : MainDB :=
  { rooms := [⟨3, none, .group, "PW", "h"⟩]
    room_members := [] }

/-- Counterexample to C5 as stated: through the `main.py` `/rooms/join`
endpoint the first join of the group-mode room succeeds, but the retry
with the same correct password does not succeed — the already-a-member
check raises Conflict, which the blanket exception clause surfaces as a
500 error. -/
theorem mainJoinRoom_retry_errors_counterexample :
    main_join_room exC5mdb 3 "PW" "u2" =
      (.ok "Successfully joined the room.",
       { rooms := exC5mdb.rooms, room_members := [(3, "u2")] }) ∧
    main_join_room { rooms := exC5mdb.rooms, room_members := [(3, "u2")] } 3 "PW" "u2" =
      (.error ⟨500, "Database operation failed: 409: User is already a member of this room."⟩,
       { rooms := exC5mdb.rooms, room_members := [(3, "u2")] }) :=
  ⟨rfl, rfl⟩

/-- Claim C6: `createGoal` on a group that already has a Goal fails with
Conflict, decided by the read performed before the insert, and the state
is returned unchanged — no Goal row is inserted in the Conflict case. -/
theorem createCrystal_conflict (db : DB) (payload : CreateCrystalPayload) :
    ∀ c, _fetch_crystal_by_room db payload.room_id = some c →
      create_crystal db payload =
        (.error ⟨409, "crystal already exists for this room"⟩, db) := by
  intro c hc
  simp only [create_crystal, hc]

/-- Witness for C6 at a concrete state: room 7 already has a crystal, so
creating another one for it returns 409 and leaves the state as it was. -/
theorem createCrystal_conflict_witness :
    create_crystal exC1db ⟨7, "another", 5, "km"⟩ =
      (.error ⟨409, "crystal already exists for this room"⟩, exC1db) :=
  createCrystal_conflict exC1db ⟨7, "another", 5, "km"⟩ ⟨1, 7, "goal", 100, "km"⟩
    (by decide)

theorem initial_profile_name_ne_empty (meta : Option String) :
    initial_profile_name meta ≠ "" := by
  cases meta with
  | none => simp [initial_profile_name, orElseStr]
  | some s =>
    simp only [initial_profile_name, orElseStr]
    by_cases h : s = "" <;> simp [h]

/-- Claim C10: fetching the profile never fails with NotFound: the call
always returns a profile, and when no row exists for the caller's user id
a default row (display name from the identity provider metadata falling
back to `"User"`, null avatar, all counts 0) is inserted and returned. -/
theorem getMyProfile_autocreates (db : DB) (uid : String) (meta : Option String) :
    (∃ p db2, get_my_profile db uid meta = (.ok p, db2)) ∧
    (db.users.filter (fun r => r.user_id == uid) = [] →
      get_my_profile db uid meta =
        (.ok ⟨initial_profile_name meta, none, 0, 0, 0⟩,
         { db with users := db.users ++ [_default_profile_row uid (initial_profile_name meta)] })) := by
  constructor
  · cases hh : (db.users.filter (fun r => r.user_id == uid)).head? with
    | none => exact ⟨_, _, by simp only [get_my_profile, hh]; rfl⟩
    | some row => exact ⟨_, _, by simp only [get_my_profile, hh]; rfl⟩
  · intro h
    have hh : (db.users.filter (fun r => r.user_id == uid)).head? = none := by
      rw [h]
      rfl
    simp only [get_my_profile, hh]
    have hprof : _row_to_profile (_default_profile_row uid (initial_profile_name meta)) =
        ⟨initial_profile_name meta, none, 0, 0, 0⟩ := by
      simp [_row_to_profile, _default_profile_row, orElseStr,
        initial_profile_name_ne_empty meta]
    rw [hprof]

/-- Empty state for the C10 witness. -/
def exC10db : DB :=
  { rooms := []
    rooms_members := []
    crystals := []
    crystal_records := []
    users := []
    next_room_id := 1
    next_crystal_id := 1
    next_record_id := 1
    now := 1 }

/-- Witness for C10 at a concrete state: the first profile read for
`"alice"` (metadata name `"Ann"`) inserts and returns the default row
instead of failing. -/
theorem getMyProfile_autocreates_witness :
    get_my_profile exC10db "alice" (some "Ann") =
      (.ok ⟨"Ann", none, 0, 0, 0⟩,
       { exC10db with users := exC10db.users ++ [_default_profile_row "alice" "Ann"] }) := by
  have h := (getMyProfile_autocreates exC10db "alice" (some "Ann")).2 rfl
  simpa [initial_profile_name, orElseStr] using h

/-- Claim C9: the generic room-creation endpoint inserts the room with
mode `"solo"` and a server-generated 6-character password over uppercase
ASCII letters and digits, upserts the creator as a `"host"` membership,
and — combined with the solo-join rule — every subsequent join attempt on
that room by any user with any password fails. -/
theorem createRoom_solo_locked (db : DB) (uid : String)
    (pick : Nat → Fin password_chars.length)
    (hfresh : ∀ r ∈ db.rooms, r.id ≠ db.next_room_id) :
    ∃ resp db2, create_room db uid pick = (.ok resp, db2) ∧
      resp.room_id = db.next_room_id ∧
      resp.password = generate_password 6 pick ∧
      resp.password.length = 6 ∧
      (∀ ch ∈ resp.password.data, ch ∈ password_chars) ∧
      db2.rooms = db.rooms ++
        [⟨db.next_room_id, none, .solo, generate_password 6 pick, uid⟩] ∧
      (∃ m ∈ db2.rooms_members,
        m.room_id = db.next_room_id ∧ m.user_id = uid ∧ m.role = "host") ∧
      (∀ uid2 pwd2, ∃ e, (join_room db2 db.next_room_id pwd2 uid2).1 = .error e) := by
  refine ⟨_, _, rfl, rfl, rfl, ?_, ?_, rfl, ?_, ?_⟩
  · simp [generate_password]
  · intro ch hch
    simp only [generate_password, String.mk] at hch
    obtain ⟨i, hi, rfl⟩ := List.mem_map.mp hch
    exact List.get_mem password_chars (pick i).1 (pick i).2
  · exact upsert_member_has_row db.rooms_members db.next_room_id uid "host"
  · intro uid2 pwd2
    have hfind : (db.rooms ++
        [(⟨db.next_room_id, none, .solo, generate_password 6 pick, uid⟩ : Room)]).find?
          (fun r => r.id == db.next_room_id) =
        some (⟨db.next_room_id, none, .solo, generate_password 6 pick, uid⟩ : Room) := by
      rw [List.find?_append]
      have h1 : db.rooms.find? (fun r => r.id == db.next_room_id) = none :=
        List.find?_eq_none.mpr (fun x hx => by simp [hfresh x hx])
      rw [h1]
      simp [List.find?]
    simp only [join_room, hfind]
    by_cases hp : generate_password 6 pick = pwd2
    · rw [if_neg (by simp [hp])]
      have hne : (upsert_member db.rooms_members db.next_room_id uid "host").filter
          (fun m => m.room_id == db.next_room_id) ≠ [] := by
        obtain ⟨m, hm, h1, _, _⟩ :=
          upsert_member_has_row db.rooms_members db.next_room_id uid "host"
        rw [Ne, List.filter_eq_nil_iff]
        push_neg
        exact ⟨m, hm, by simp [h1]⟩
      rw [if_pos ⟨trivial, hne⟩]
      exact ⟨_, rfl⟩
    · rw [if_pos hp]
      exact ⟨_, rfl⟩

/-- Empty state for the C9 witness. -/
def exC9db : DB :=
  { rooms := []
    rooms_members := []
    crystals := []
    crystal_records := []
    users := []
    next_room_id := 1
    next_crystal_id := 1
    next_record_id := 1
    now := 1 }

/-- A concrete random-choice oracle that always picks the first alphabet
character. -/
def exC9pick : Nat → Fin password_chars.length := fun _ => ⟨0, by decide⟩

/-- Witness for C9 at a concrete state: creating a room in the empty
state yields password `"AAAAAA"` under the all-zero oracle, and even a
different user presenting that correct password is rejected with 409. -/
theorem createRoom_solo_locked_witness :
    (∃ resp db2, create_room exC9db "alice" exC9pick = (.ok resp, db2) ∧
      resp.password.length = 6 ∧
      (∀ uid2 pwd2, ∃ e, (join_room db2 1 pwd2 uid2).1 = .error e)) ∧
    generate_password 6 exC9pick = "AAAAAA" ∧
    (join_room (create_room exC9db "alice" exC9pick).2 1 "AAAAAA" "bob").1 =
      .error ⟨409, "This is a solo room and is already occupied."⟩ := by
  refine ⟨?_, rfl, rfl⟩
  obtain ⟨resp, db2, h1, h2, h3, h4, h5, h6, h7, h8⟩ :=
    createRoom_solo_locked exC9db "alice" exC9pick (by decide)
  exact ⟨resp, db2, h1, h4, h8⟩

/-- Claim C7: `listContributions` returns the Goal's Contributions
ordered by creation time descending — strictly descending whenever the
creation times are pairwise distinct — truncated to at most `limit`
entries (and untruncated exactly when the Goal has at most `limit`
Contributions), with `limit` defaulting to 50. -/
theorem listRecords_desc_truncated (db : DB) (cid : Nat) (limit : Nat) :
    ∀ c, _fetch_crystal db cid = some c →
      ∃ l, list_records db cid limit = .ok l ∧
        l.length ≤ limit ∧
        (∀ r ∈ l, r.crystal_id = cid) ∧
        List.Pairwise (fun a b => b.created_at ≤ a.created_at) l ∧
        ((db.crystal_records.filter (fun r => r.crystal_id == cid)).Pairwise
            (fun a b => a.created_at ≠ b.created_at) →
          List.Pairwise (fun a b => b.created_at < a.created_at) l) ∧
        ((db.crystal_records.filter (fun r => r.crystal_id == cid)).length ≤ limit →
          l.Perm (db.crystal_records.filter (fun r => r.crystal_id == cid))) ∧
        list_records db cid = list_records db cid 50 := by
  intro c hc
  have htrans : ∀ a b c : Record, (fun a b => decide (b.created_at ≤ a.created_at)) a b = true →
      (fun a b => decide (b.created_at ≤ a.created_at)) b c = true →
      (fun a b => decide (b.created_at ≤ a.created_at)) a c = true := by
    intro a b c hab hbc
    simp only [decide_eq_true_iff] at *
    exact le_trans hbc hab
  have htotal : ∀ a b : Record, ((fun a b => decide (b.created_at ≤ a.created_at)) a b ||
      (fun a b => decide (b.created_at ≤ a.created_at)) b a) = true := by
    intro a b
    simp only [Bool.or_eq_true, decide_eq_true_iff]
    exact Nat.le_total b.created_at a.created_at
  set filtered := db.crystal_records.filter (fun r => r.crystal_id == cid) with hfiltered
  set sorted := filtered.mergeSort (fun a b => decide (b.created_at ≤ a.created_at)) with hsorted
  have hperm : sorted.Perm filtered := List.mergeSort_perm filtered _
  have hsortedpw : List.Pairwise (fun a b => b.created_at ≤ a.created_at) sorted := by
    have := List.sorted_mergeSort htrans htotal filtered
    exact this.imp (fun h => decide_eq_true_iff.mp h)
  refine ⟨(sorted.take limit), by simp only [list_records, hc], ?_, ?_, ?_, ?_, ?_, rfl⟩
  · rw [List.length_take]
    exact min_le_left _ _
  · intro r hr
    have h1 : r ∈ sorted := (List.take_sublist limit sorted).mem hr
    have h2 : r ∈ filtered := hperm.mem_iff.mp h1
    have := List.of_mem_filter h2
    simpa using this
  · exact hsortedpw.sublist (List.take_sublist limit sorted)
  · intro hnodup
    have hne : List.Pairwise (fun a b : Record => a.created_at ≠ b.created_at) sorted :=
      (List.Perm.pairwise_iff (fun h => h.symm) hperm).mpr hnodup
    have hlt : List.Pairwise (fun a b : Record => b.created_at < a.created_at) sorted := by
      have := hsortedpw.and hne
      exact this.imp (fun h => lt_of_le_of_ne h.1 (fun e => h.2 e.symm))
    exact hlt.sublist (List.take_sublist limit sorted)
  · intro hlen
    have hlen2 : sorted.length ≤ limit := by
      rw [hperm.length_eq]
      exact hlen
    rw [List.take_of_length_le hlen2]
    exact hperm

/-- State for the C7 witness: crystal 1 has three records with creation
times 1, 3, 2, and an unrelated crystal 2 has one record. -/
def exC7db : DB :=
  { rooms := []
    rooms_members := []
    crystals := [⟨1, 7, "goal", 100, "km"⟩]
    crystal_records := [⟨1, 1, "u", 40, none, 1⟩, ⟨2, 1, "u", 70, none, 3⟩,
      ⟨3, 2, "u", 5, none, 2⟩, ⟨4, 1, "u", 9, none, 2⟩]
    users := []
    next_room_id := 10
    next_crystal_id := 2
    next_record_id := 5
    now := 6 }

/-- Witness for C7 at a concrete state: the listing of crystal 1 is
strictly descending in creation time, and with `limit = 2` it is
truncated to the two newest records. -/
theorem listRecords_desc_truncated_witness :
    (∃ l, list_records exC7db 1 50 = .ok l ∧ l.length ≤ 50 ∧
      (∀ r ∈ l, r.crystal_id = 1) ∧
      List.Pairwise (fun a b => b.created_at < a.created_at) l) ∧
    list_records exC7db 1 2 =
      .ok [⟨2, 1, "u", 70, none, 3⟩, ⟨4, 1, "u", 9, none, 2⟩] := by
  constructor
  · obtain ⟨l, h1, h2, h3, h4, h5, h6, h7⟩ :=
      listRecords_desc_truncated exC7db 1 50 ⟨1, 7, "goal", 100, "km"⟩ (by decide)
    exact ⟨l, h1, h2, h3, h5 (by decide)⟩
  · simp [list_records, _fetch_crystal, exC7db, List.mergeSort]

theorem charToDigit_digitChar : ∀ d < 10, charToDigit (digitChar d) = d := by decide

theorem digitChar_isDigit : ∀ d < 10, (digitChar d).isDigit = true := by decide

theorem digitChar_ne_dot : ∀ d < 10, digitChar d ≠ '.' := by decide

theorem digitChar_ne_minus : ∀ d < 10, digitChar d ≠ '-' := by decide

theorem digitChar_ne_plus : ∀ d < 10, digitChar d ≠ '+' := by decide

theorem ofDigitsMSD_append (l : List Nat) (d : Nat) :
    ofDigitsMSD (l ++ [d]) = 10 * ofDigitsMSD l + d := by
  simp [ofDigitsMSD, List.foldl_append]

theorem ofDigitsMSD_reverse (l : List Nat) :
    ofDigitsMSD l.reverse = Nat.ofDigits 10 l := by
  induction l with
  | nil => rfl
  | cons d l ih =>
    rw [List.reverse_cons, ofDigitsMSD_append, ih, Nat.ofDigits_cons]
    ring

theorem natDecChars_ne_nil (m : Nat) : natDecChars m ≠ [] := by
  unfold natDecChars
  by_cases h : m = 0
  · simp [h]
  · rw [if_neg h]
    simp only [ne_eq, List.map_eq_nil_iff, List.reverse_eq_nil_iff]
    exact Nat.digits_ne_nil_iff_ne_zero.mpr h

theorem natDecChars_all_digit (m : Nat) :
    ∀ c ∈ natDecChars m, c.isDigit = true ∧ c ≠ '.' := by
  unfold natDecChars
  by_cases h : m = 0
  · rw [if_pos h]
    decide
  · rw [if_neg h]
    intro c hc
    rw [List.mem_map] at hc
    obtain ⟨d, hd, rfl⟩ := hc
    rw [List.mem_reverse] at hd
    have hlt : d < 10 := Nat.digits_lt_base (by norm_num) hd
    exact ⟨digitChar_isDigit d hlt, digitChar_ne_dot d hlt⟩

theorem natDecChars_value (m : Nat) :
    ofDigitsMSD ((natDecChars m).map charToDigit) = m := by
  unfold natDecChars
  by_cases h : m = 0
  · rw [if_pos h, h]
    decide
  · rw [if_neg h]
    rw [List.map_map, List.map_reverse]
    have hmap : (Nat.digits 10 m).map (charToDigit ∘ digitChar) = Nat.digits 10 m := by
      have : ∀ d ∈ Nat.digits 10 m, (charToDigit ∘ digitChar) d = d := by
        intro d hd
        exact charToDigit_digitChar d (Nat.digits_lt_base (by norm_num) hd)
      calc (Nat.digits 10 m).map (charToDigit ∘ digitChar)
          = (Nat.digits 10 m).map id := List.map_congr_left this
        _ = Nat.digits 10 m := List.map_id _
    rw [hmap, ofDigitsMSD_reverse, Nat.ofDigits_digits]


theorem fracDecChars_all_digit (f : Nat) :
    ∀ c ∈ fracDecChars f, c.isDigit = true ∧ c ≠ '.' := by
  intro c hc
  simp only [fracDecChars, List.map_cons, List.map_nil, List.mem_cons,
    List.not_mem_nil, or_false] at hc
  have h10 : ∀ x : Nat, x % 10 < 10 := fun x => Nat.mod_lt _ (by norm_num)
  rcases hc with rfl | rfl | rfl | rfl
  all_goals exact ⟨digitChar_isDigit _ (h10 _), digitChar_ne_dot _ (h10 _)⟩

theorem fracDecChars_length (f : Nat) : (fracDecChars f).length = 4 := rfl

theorem fracDecChars_value (f : Nat) (hf : f < 10000) :
    ofDigitsMSD ((fracDecChars f).map charToDigit) = f := by
  have h10 : ∀ x : Nat, x % 10 < 10 := fun x => Nat.mod_lt _ (by norm_num)
  simp only [fracDecChars, List.map_map, List.map_cons, List.map_nil,
    Function.comp_apply]
  rw [charToDigit_digitChar _ (h10 _), charToDigit_digitChar _ (h10 _),
    charToDigit_digitChar _ (h10 _), charToDigit_digitChar _ (h10 _)]
  simp only [ofDigitsMSD, List.foldl_cons, List.foldl_nil]
  omega

theorem splitOnDot_no_dot (l : List Char) (h : '.' ∉ l) : splitOnDot l = [l] := by
  induction l with
  | nil => rfl
  | cons c rest ih =>
    have hc : c ≠ '.' := fun e => h (e ▸ List.mem_cons_self c rest)
    have hrest : '.' ∉ rest := fun e => h (List.mem_cons_of_mem c e)
    unfold splitOnDot
    rw [if_neg hc, ih hrest]

theorem splitOnDot_append (a b : List Char) (h : '.' ∉ a) :
    splitOnDot (a ++ '.' :: b) = a :: splitOnDot b := by
  induction a with
  | nil =>
    simp only [List.nil_append, splitOnDot]
    simp
  | cons c rest ih =>
    have hc : c ≠ '.' := fun e => h (e ▸ List.mem_cons_self c rest)
    have hrest : '.' ∉ rest := fun e => h (List.mem_cons_of_mem c e)
    simp only [List.cons_append, splitOnDot, List.append_eq]
    rw [if_neg hc, ih hrest]


end CrystaRise
namespace CrystaRise


end CrystaRise
namespace CrystaRise

theorem parseUnsigned_wire (a : Nat) :
    parseUnsignedChars (natDecChars (a / 10000) ++ '.' :: fracDecChars (a % 10000)) =
      some ((a : ℚ) / 10000) := by
  have hint := natDecChars_all_digit (a / 10000)
  have hfrac := fracDecChars_all_digit (a % 10000)
  have hdot_ip : '.' ∉ natDecChars (a / 10000) := fun hmem => (hint _ hmem).2 rfl
  have hdot_fp : '.' ∉ fracDecChars (a % 10000) := fun hmem => (hfrac _ hmem).2 rfl
  have hipall : (natDecChars (a / 10000)).all Char.isDigit = true :=
    List.all_eq_true.mpr (fun c hc => (hint c hc).1)
  have hfpall : (fracDecChars (a % 10000)).all Char.isDigit = true :=
    List.all_eq_true.mpr (fun c hc => (hfrac c hc).1)
  have hipempty : (natDecChars (a / 10000)).isEmpty = false := by
    simpa using natDecChars_ne_nil (a / 10000)
  have hsplit : splitOnDot (natDecChars (a / 10000) ++ '.' :: fracDecChars (a % 10000)) =
      [natDecChars (a / 10000), fracDecChars (a % 10000)] := by
    rw [splitOnDot_append _ _ hdot_ip, splitOnDot_no_dot _ hdot_fp]
  simp only [parseUnsignedChars, hsplit]
  rw [if_pos (by rw [hipall, hfpall, hipempty]; rfl)]
  rw [natDecChars_value, fracDecChars_value _ (Nat.mod_lt _ (by norm_num)),
    fracDecChars_length]
  congr 1
  have key : (10000 : ℚ) * ((a / 10000 : ℕ) : ℚ) + ((a % 10000 : ℕ) : ℚ) = (a : ℚ) := by
    exact_mod_cast congrArg (Nat.cast : ℕ → ℚ) (Nat.div_add_mod a 10000)
  have h4 : (10 : ℚ) ^ 4 = 10000 := by norm_num
  rw [h4]
  field_simp
  linarith [key]

theorem char_isDigit_ne_minus {c : Char} (h : c.isDigit = true) : c ≠ '-' := by
  intro he
  subst he
  exact absurd h (by decide)

theorem char_isDigit_ne_plus {c : Char} (h : c.isDigit = true) : c ≠ '+' := by
  intro he
  subst he
  exact absurd h (by decide)

theorem parseDecimal_decimalToWire (n : ℤ) :
    parseDecimal (decimalToWire n) = some ((n : ℚ) / 10000) := by
  show parseDecChars (wireChars n) = some ((n : ℚ) / 10000)
  unfold wireChars
  by_cases hneg : n < 0
  · rw [if_pos hneg]
    unfold parseDecChars
    rw [if_pos (by simp [List.head?])]
    simp only [List.tail_cons]
    rw [parseUnsigned_wire n.natAbs]
    rw [show ((n.natAbs : ℚ)) = -(n : ℚ) by
      rw [Int.cast_natAbs, abs_of_neg hneg, Int.cast_neg]]
    simp [neg_div]
  · rw [if_neg hneg]
    cases hcs : natDecChars (n.natAbs / 10000) with
    | nil => exact absurd hcs (natDecChars_ne_nil _)
    | cons c0 rest =>
      have hc0digit : c0.isDigit = true :=
        (natDecChars_all_digit _ c0 (by rw [hcs]; exact List.mem_cons_self _ _)).1
      unfold parseDecChars
      rw [if_neg (by simp [List.cons_append, List.head?, char_isDigit_ne_minus hc0digit]),
        if_neg (by simp [List.cons_append, List.head?, char_isDigit_ne_plus hc0digit])]
      rw [show c0 :: rest ++ '.' :: fracDecChars (n.natAbs % 10000) =
          natDecChars (n.natAbs / 10000) ++ '.' :: fracDecChars (n.natAbs % 10000) from by
        rw [hcs]]
      rw [parseUnsigned_wire n.natAbs]
      rw [show ((n.natAbs : ℚ)) = (n : ℚ) by
        rw [Int.cast_natAbs, abs_of_nonneg (not_lt.mp hneg)]]

theorem sum_records_wire_map (ns : List ℤ) :
    sum_records_wire (ns.map decimalToWire) =
      some (((ns.map (fun n : ℤ => ((n : ℚ) / 10000))).sum : ℚ)) := by
  suffices h : ∀ (ms : List ℤ) (acc : ℚ),
      (ms.map decimalToWire).foldl
        (fun acc s => do
          let a ← acc
          let v ← parseDecimal s
          pure (a + v)) (some acc) =
        some (acc + ((ms.map (fun n : ℤ => ((n : ℚ) / 10000))).sum : ℚ)) by
    have h0 := h ns 0
    unfold sum_records_wire
    rw [h0]
    simp
  intro ms
  induction ms with
  | nil =>
    intro acc
    simp
  | cons n rest ih =>
    intro acc
    simp only [List.map_cons, List.foldl_cons]
    have hstep : ((do
        let a ← some acc
        let v ← parseDecimal (decimalToWire n)
        pure (a + v) : Option ℚ)) = some (acc + (n : ℚ) / 10000) := by
      rw [parseDecimal_decimalToWire n]
      rfl
    rw [hstep, ih]
    simp only [List.sum_cons]
    rw [add_assoc]

/-- Claim C8: the summation of Contribution values is exact fixed-point
arithmetic carried through the string wire format: serialising a
fixed-point value `n / 10^4` with `str(...)` and parsing it back with
`Decimal(...)` recovers it exactly, and `_sum_records` over the wire rows
returns exactly the rational sum of the stored values — no floating-point
rounding enters the summation step (only the final rate is converted to a
float by the handlers, outside this computation). -/
theorem summation_exact_fixed_point :
    (∀ n : ℤ, parseDecimal (decimalToWire n) = some ((n : ℚ) / 10000)) ∧
    (∀ ns : List ℤ, sum_records_wire (ns.map decimalToWire) =
      some (((ns.map (fun n : ℤ => ((n : ℚ) / 10000))).sum : ℚ))) :=
  ⟨parseDecimal_decimalToWire, sum_records_wire_map⟩

end CrystaRise
